import Mathlib

/-!
# Memo store verification

Shallow embedding of the memo store implemented in `src/note.ts` of the
note-taking API. The `Note` class there keeps a private array `data : Memo[]`;
we model that array as a `List Memo` and each method as a pure function from
the pre-state to a pair of (returned value or thrown error, post-state).
JavaScript array operations are translated directly:

* `this.data.push(memo)`               ↦ `s ++ [m]`
* `[...this.data]` (snapshot copy)     ↦ the list itself (lists are values)
* `updated.splice(index, 1)`           ↦ `List.eraseIdx`
* `this.data[index] = x`               ↦ `List.set`
* `{...this.data[index], ...memo}`     ↦ field-wise `Option.getD` merge
* falsy test `!memo.data` on a string  ↦ `m.data = ""`

Route handlers from the Elysia app at the bottom of `src/note.ts` are
embedded as functions of the request inputs; the resolved identity
(`username` from the `getUserId` plugin) is an explicit argument.
-/

/-- The memo schema from `src/note.ts`:
`t.Object({ data: t.String(), author: t.String() })`. -/
structure Memo where
  data : String
  author : String
deriving Repr, DecidableEq, Inhabited

/-- Embedding of the TypeScript type `Partial<Memo>` taken by `Note.update`:
each field is either supplied (`some`) or absent/`undefined` (`none`). -/
structure MemoPatch where
  data : Option String
  author : Option String
deriving Repr, DecidableEq

/-- The two error conditions thrown by the `Note` class: invalid index and
invalid memo. -/
inductive NoteErr where
  | invalidIndex
  | invalidMemo
deriving Repr, DecidableEq

namespace Note

/-- Default constructor argument of the `Note` class:
`[{ data: "Moonhalo", author: "saltyaom" }]`.  The route plugin decorates
the app with `new Note()`, i.e. this seed. -/
def initialData : List Memo := [{ data := "Moonhalo", author := "saltyaom" }]

/-- `Note.isValidIndex`: `index >= 0 && index < this.data.length`.
The index is an `Int` because JavaScript indices may be negative. -/
def isValidIndex (s : List Memo) (i : Int) : Bool :=
  decide (0 ≤ i) && decide (i < (s.length : Int))

/-- `Note.add`: throws `InvalidMemo` when `!memo.data || !memo.author`
(for strings, falsy means empty), otherwise pushes onto the live array and
returns a snapshot of it. -/
def add (s : List Memo) (m : Memo) : Except NoteErr (List Memo) × List Memo :=
  if m.data = "" || m.author = "" then (Except.error NoteErr.invalidMemo, s)
  else (Except.ok (s ++ [m]), s ++ [m])

/-- `Note.remove`: throws `InvalidIndex` when the index is invalid; otherwise
copies the array (`const updated = [...this.data]`), splices the entry out of
the copy and returns the copy.  Note that the source never writes the copy
back: the post-state is the unchanged pre-state. -/
def remove (s : List Memo) (i : Int) : Except NoteErr (List Memo) × List Memo :=
  if isValidIndex s i then (Except.ok (s.eraseIdx i.toNat), s)
  else (Except.error NoteErr.invalidIndex, s)

/-- `Note.update`: throws `InvalidIndex` when the index is invalid; then
throws `InvalidMemo` when `memo.data === undefined && memo.author === undefined`;
otherwise stores `{...this.data[index], ...memo}` at the index and returns it. -/
def update (s : List Memo) (i : Int) (p : MemoPatch) :
    Except NoteErr Memo × List Memo :=
  if !isValidIndex s i then (Except.error NoteErr.invalidIndex, s)
  else if p.data = none ∧ p.author = none then (Except.error NoteErr.invalidMemo, s)
  else
    let old := s.getD i.toNat default
    let merged : Memo :=
      { data := p.data.getD old.data, author := p.author.getD old.author }
    (Except.ok merged, s.set i.toNat merged)

/-- `Note.get`: throws `InvalidIndex` when the index is invalid, otherwise
returns `this.data[index]`. -/
def get (s : List Memo) (i : Int) : Except NoteErr Memo × List Memo :=
  if isValidIndex s i then (Except.ok (s.getD i.toNat default), s)
  else (Except.error NoteErr.invalidIndex, s)

/-- `Note.getAll`: returns a snapshot `[...this.data]` of the whole array. -/
def getAll (s : List Memo) : List Memo := s

/-- `Note.clear`: truncates the live array and returns `[]`. -/
def clear (_s : List Memo) : List Memo × List Memo := ([], [])

/-- `Note.count`: `this.data.length`. -/
def count (s : List Memo) : Nat := s.length

/-- `GET /note/` handler: `({ note }) => note.getAll()`. -/
def listHandler (s : List Memo) : List Memo := getAll s

/-- `PUT /note/` handler: the body schema admits only `data`; the handler runs
`note.add({ data, author: username })` where `username` is the identity
resolved by the `getUserId` plugin. -/
def putHandler (s : List Memo) (d : String) (username : String) :
    Except NoteErr (List Memo) × List Memo :=
  add s { data := d, author := username }

/-- `GET /note/:index` handler: `note.get(index)`. -/
def getIndexHandler (s : List Memo) (i : Int) : Except NoteErr Memo × List Memo :=
  get s i

/-- `DELETE /note/:index` handler: `note.remove(index)`. -/
def deleteHandler (s : List Memo) (i : Int) : Except NoteErr (List Memo) × List Memo :=
  remove s i

/-- `PATCH /note/:index` handler: the body schema admits only `data`; the
handler runs `note.update(index, { data, author: username })` with the
resolved `username`, so both patch fields are supplied. -/
def patchHandler (s : List Memo) (i : Int) (d : String) (username : String) :
    Except NoteErr Memo × List Memo :=
  update s i { data := some d, author := some username }

end Note

/-- Unfolding of the index-validity test into arithmetic. -/
theorem isValidIndex_iff (s : List Memo) (i : Int) :
    Note.isValidIndex s i = true ↔ 0 ≤ i ∧ i < (s.length : Int) := by
  simp [Note.isValidIndex]

/-- C9: the `Note` constructor invoked with no arguments seeds the store with
exactly the single memo `{data: "Moonhalo", author: "saltyaom"}`, so the first
`list()` before any mutation returns exactly that one-element sequence. -/
theorem init_seed_single_memo :
    Note.getAll Note.initialData = [{ data := "Moonhalo", author := "saltyaom" }] :=
  rfl

/-- C5: `get`, `update` and `remove` fail with `InvalidIndex` exactly when the
index is negative or at least the current length. -/
theorem invalidIndex_rule (s : List Memo) (i : Int) :
    ((Note.get s i).1 = Except.error NoteErr.invalidIndex ↔
      (i < 0 ∨ (s.length : Int) ≤ i)) ∧
    (∀ p : MemoPatch, (Note.update s i p).1 = Except.error NoteErr.invalidIndex ↔
      (i < 0 ∨ (s.length : Int) ≤ i)) ∧
    ((Note.remove s i).1 = Except.error NoteErr.invalidIndex ↔
      (i < 0 ∨ (s.length : Int) ≤ i)) := by
  by_cases h : Note.isValidIndex s i = true
  · have harith : ¬ (i < 0 ∨ (s.length : Int) ≤ i) := by
      rcases (isValidIndex_iff s i).mp h with ⟨h1, h2⟩
      omega
    refine ⟨by simp [Note.get, h, harith], fun p => ?_, by simp [Note.remove, h, harith]⟩
    by_cases hp : p.data = none ∧ p.author = none <;>
      simp [Note.update, h, hp, harith]
  · have hf : Note.isValidIndex s i = false := by
      simpa using h
    have harith : i < 0 ∨ (s.length : Int) ≤ i := by
      have := (isValidIndex_iff s i).not.mp (by simp [hf])
      omega
    exact ⟨by simp [Note.get, hf, harith], fun p => by simp [Note.update, hf, harith],
      by simp [Note.remove, hf, harith]⟩

/-- C2: `remove` never mutates the store: the post-state equals the pre-state
for every index; on a valid index it returns a copy of the prior sequence with
the entry at the index omitted, on an invalid index it throws `InvalidIndex`. -/
theorem remove_pure (s : List Memo) (i : Int) :
    (Note.remove s i).2 = s ∧
    (Note.isValidIndex s i = true →
      (Note.remove s i).1 = Except.ok (s.take i.toNat ++ s.drop (i.toNat + 1))) ∧
    (Note.isValidIndex s i = false →
      (Note.remove s i).1 = Except.error NoteErr.invalidIndex) := by
  refine ⟨?_, fun h => ?_, fun h => ?_⟩
  · by_cases h : Note.isValidIndex s i = true <;> simp [Note.remove, h]
  · simp [Note.remove, h, List.eraseIdx_eq_take_drop_succ]
  · simp [Note.remove, h]

/-- Witness for C2 at a concrete store and index. -/
theorem remove_pure_spot :
    (Note.remove Note.initialData 0).2 = Note.initialData ∧
    (Note.remove Note.initialData 0).1 = Except.ok ([] : List Memo) := by
  have h := remove_pure Note.initialData 0
  exact ⟨h.1, by simpa using h.2.1 (by decide)⟩

/-- C8: whenever an operation fails, the post-state equals the pre-state:
no partial write is observable. -/
theorem failure_leaves_state (s : List Memo) (m : Memo) (i : Int) (p : MemoPatch) :
    (∀ e, (Note.add s m).1 = Except.error e → (Note.add s m).2 = s) ∧
    (∀ e, (Note.get s i).1 = Except.error e → (Note.get s i).2 = s) ∧
    (∀ e, (Note.update s i p).1 = Except.error e → (Note.update s i p).2 = s) ∧
    (∀ e, (Note.remove s i).1 = Except.error e → (Note.remove s i).2 = s) := by
  refine ⟨fun e he => ?_, fun e he => ?_, fun e he => ?_, fun e he => ?_⟩
  · by_cases h : (m.data = "" || m.author = "") = true <;> simp [Note.add, h] at he ⊢
  · by_cases h : Note.isValidIndex s i = true <;> simp [Note.get, h]
  · by_cases h : Note.isValidIndex s i = true
    · by_cases hp : p.data = none ∧ p.author = none <;>
        simp [Note.update, h, hp] at he ⊢
    · have hf : Note.isValidIndex s i = false := by simpa using h
      simp [Note.update, hf]
  · by_cases h : Note.isValidIndex s i = true <;> simp [Note.remove, h]

/-- Witness for C8: a failing `add` on the empty store leaves it empty. -/
theorem failure_leaves_state_spot :
    (Note.add [] { data := "", author := "y" }).2 = [] :=
  (failure_leaves_state [] { data := "", author := "y" } 0
    { data := none, author := none }).1 NoteErr.invalidMemo rfl

/-- C3 counterexample: on the seed store, `update(0, {data: ""})` succeeds and
returns a memo whose `data` field is empty — the merged memo has an empty
relevant field, yet no `InvalidMemo` is raised. -/
theorem update_empty_data_accepted :
    (Note.update Note.initialData 0 { data := some "", author := none }).1 =
      Except.ok { data := "", author := "saltyaom" } := rfl

/-- C3 amended: `add` rejects with `InvalidMemo` exactly when `data` or
`author` is empty, while `update`'s invalid-memo check fires exactly when the
patch supplies neither field — `update` never re-checks non-emptiness of the
merged memo. -/
theorem invalidMemo_rule (s : List Memo) (m : Memo) (i : Int) (p : MemoPatch) :
    ((Note.add s m).1 = Except.error NoteErr.invalidMemo ↔
      (m.data = "" ∨ m.author = "")) ∧
    ((Note.update s i p).1 = Except.error NoteErr.invalidMemo ↔
      (Note.isValidIndex s i = true ∧ p.data = none ∧ p.author = none)) := by
  constructor
  · by_cases h : (m.data = "" || m.author = "") = true <;>
      simp [Note.add, h] <;> simpa using h
  · by_cases hv : Note.isValidIndex s i = true
    · by_cases hp : p.data = none ∧ p.author = none <;>
        simp [Note.update, hv, hp]
    · have hf : Note.isValidIndex s i = false := by simpa using hv
      simp [Note.update, hf]

/-- C6: on a valid index, `update` merges the supplied patch fields into the
existing memo at that index and returns the merged memo, leaving each
unsupplied field at its existing value; when the patch supplies neither
field it fails with `InvalidMemo`. -/
theorem update_merge_rule (s : List Memo) (i : Int) (p : MemoPatch)
    (hv : Note.isValidIndex s i = true) :
    ((p.data ≠ none ∨ p.author ≠ none) →
      ∀ old, s.get? i.toNat = some old →
        (Note.update s i p).1 = Except.ok
          { data := p.data.getD old.data, author := p.author.getD old.author }) ∧
    (p.data = none ∧ p.author = none →
      (Note.update s i p).1 = Except.error NoteErr.invalidMemo) := by
  constructor
  · intro hsup old hold
    have hp : ¬ (p.data = none ∧ p.author = none) := by tauto
    have hold' : s[i.toNat]? = some old := by
      rw [← List.get?_eq_getElem?]
      exact hold
    simp [Note.update, hv, hp, hold']
  · intro hp
    simp [Note.update, hv, hp]

/-- Witness for C6: updating only `data` on the seed store preserves the
existing author. -/
theorem update_merge_rule_spot :
    (Note.update Note.initialData 0 { data := some "hi", author := none }).1 =
      Except.ok { data := "hi", author := "saltyaom" } := by
  have h := (update_merge_rule Note.initialData 0
      { data := some "hi", author := none } (by decide)).1
    (Or.inl (by simp)) { data := "Moonhalo", author := "saltyaom" } rfl
  simpa using h

/-- C7: `add` succeeds exactly on memos with non-empty `data` and `author`,
appending to the end, growing the length by one, returning the full new
sequence, with the new memo readable at the old length; on an empty field it
fails with `InvalidMemo` and appends nothing. -/
theorem add_get_roundtrip (s : List Memo) (m : Memo) :
    (m.data ≠ "" ∧ m.author ≠ "" →
      (Note.add s m).1 = Except.ok (s ++ [m]) ∧
      (Note.add s m).2 = s ++ [m] ∧
      (Note.add s m).2.length = s.length + 1 ∧
      (Note.get (Note.add s m).2 (s.length : Int)).1 = Except.ok m) ∧
    (m.data = "" ∨ m.author = "" →
      (Note.add s m).1 = Except.error NoteErr.invalidMemo ∧
      (Note.add s m).2 = s) := by
  constructor
  · rintro ⟨h1, h2⟩
    have hc : (m.data = "" || m.author = "") = false := by simp [h1, h2]
    have hval : Note.isValidIndex (s ++ [m]) (s.length : Int) = true := by
      rw [isValidIndex_iff]
      constructor
      · exact Int.ofNat_nonneg _
      · simp
    refine ⟨by simp [Note.add, hc], by simp [Note.add, hc], by simp [Note.add, hc], ?_⟩
    have hget : (s ++ [m]).getD ((s.length : Int)).toNat default = m := by
      rw [Int.toNat_ofNat, List.getD_eq_getD_get?, List.get?_concat_length]
      rfl
    simp [Note.add, hc, Note.get, hval, hget]
  · intro hbad
    have hc : (m.data = "" || m.author = "") = true := by
      rcases hbad with hb | hb <;> simp [hb]
    exact ⟨by simp [Note.add, hc], by simp [Note.add, hc]⟩

/-- Witness for C7: adding `{data:"x",author:"y"}` to the seed store grows it
to two memos and `get(1)` returns the new memo. -/
theorem add_get_roundtrip_spot :
    (Note.add Note.initialData { data := "x", author := "y" }).2.length = 2 ∧
    (Note.get (Note.add Note.initialData { data := "x", author := "y" }).2 1).1 =
      Except.ok { data := "x", author := "y" } := by
  have h := (add_get_roundtrip Note.initialData { data := "x", author := "y" }).1
    ⟨by decide, by decide⟩
  exact ⟨h.2.2.1, by simpa using h.2.2.2⟩

/-- C10: on a valid index with at least one supplied field, `update` keeps the
length unchanged and leaves every other position exactly as it was. -/
theorem update_frame (s : List Memo) (i : Int) (p : MemoPatch)
    (hv : Note.isValidIndex s i = true)
    (hsup : p.data ≠ none ∨ p.author ≠ none) :
    (Note.update s i p).2.length = s.length ∧
    ∀ j : Nat, j ≠ i.toNat → (Note.update s i p).2.get? j = s.get? j := by
  have hp : ¬ (p.data = none ∧ p.author = none) := by tauto
  constructor
  · simp [Note.update, hv, hp]
  · intro j hj
    simp only [Note.update, hv, Bool.not_true, Bool.false_eq_true, if_false, hp,
      if_neg hp]
    exact List.get?_set_ne _ _ (Ne.symm hj)

/-- Witness for C10: updating index 1 of a two-memo store leaves index 0
untouched. -/
theorem update_frame_spot :
    (Note.update (Note.initialData ++ [{ data := "hello", author := "alice" }]) 1
      { data := some "hi", author := none }).2.get? 0 =
      some { data := "Moonhalo", author := "saltyaom" } := by
  have h := (update_frame (Note.initialData ++ [{ data := "hello", author := "alice" }]) 1
      { data := some "hi", author := none } (by decide) (Or.inl (by simp))).2 0 (by decide)
  rw [h]
  rfl

/-- C4: the boundary handlers force `author` to the resolved username: every
memo appended by the PUT handler and every memo returned by the PATCH handler
carries the resolved `username` as author, whatever `data` the client sent. -/
theorem handlers_force_author (s : List Memo) (i : Int) (d u : String) :
    (∀ l, (Note.putHandler s d u).1 = Except.ok l →
      l.getLast? = some { data := d, author := u }) ∧
    (∀ m, (Note.patchHandler s i d u).1 = Except.ok m →
      m = { data := d, author := u }) := by
  constructor
  · intro l hl
    by_cases hc : (d = "" || u = "") = true <;>
      simp [Note.putHandler, Note.add, hc] at hl
    rw [← hl, List.getLast?_concat]
  · intro m hm
    by_cases hv : Note.isValidIndex s i = true
    · simp [Note.patchHandler, Note.update, hv] at hm
      exact hm.symm
    · have hf : Note.isValidIndex s i = false := by simpa using hv
      simp [Note.patchHandler, Note.update, hf] at hm

/-- Witness for C4: with resolved username `alice` and client data `hello`,
the PUT handler appends `{data:"hello",author:"alice"}`. -/
theorem handlers_force_author_spot :
    (Note.putHandler Note.initialData "hello" "alice").1 =
      Except.ok (Note.initialData ++ [{ data := "hello", author := "alice" }]) ∧
    (Note.initialData ++ [({ data := "hello", author := "alice" } : Memo)]).getLast? =
      some { data := "hello", author := "alice" } :=
  ⟨rfl, (handlers_force_author Note.initialData 0 "hello" "alice").1 _ rfl⟩

/-- C1 at its failing input: on the seed store (one memo), `remove(0)` returns
the emptied snapshot, yet the store observed by the subsequent `list()` still
holds the original memo — the removal is never written back. -/
theorem remove_then_list_unchanged :
    (Note.deleteHandler Note.initialData 0).1 = Except.ok ([] : List Memo) ∧
    Note.listHandler (Note.deleteHandler Note.initialData 0).2 = Note.initialData ∧
    (Note.listHandler (Note.deleteHandler Note.initialData 0).2).length = 1 := by
  exact ⟨rfl, rfl, rfl⟩
